import Mathlib

/-!
Verification of the CorpFinity wellness-tracking backend core:
streak tracker, achievement evaluator, reminder scheduler match rule,
notification dispatch, and cache-independence of read paths.

Dates are modelled as integers (day numbers); `today - 1` is the previous
calendar day.  All definitions are shallow embeddings of the Python
services under `backend/services/`.
-/

namespace CorpFinity

/-- The stored per-user streak row (`models.UserStreak`): `current_streak`,
`longest_streak`, `last_completed_date` (nullable date). -/
structure UserStreak where
  current_streak : Nat
  longest_streak : Nat
  last_completed_date : Option Int
  deriving Repr, DecidableEq

/-- Embedding of `ChallengeService._update_streak` (challenge completion).
Input: the existing row (or `none`) and `today`; output: the stored row after
the update.  Mirrors the source branch for branch:
no row → create (1, 1, today); `last_completed_date == today` → return
unchanged; `== today - 1` → increment; otherwise reset to 1; then raise
`longest_streak` when `current_streak` exceeds it and stamp today. -/
def updateStreak (today : Int) (s : Option UserStreak) : UserStreak :=
  match s with
  | none =>
      { current_streak := 1, longest_streak := 1, last_completed_date := some today }
  | some streak =>
      if streak.last_completed_date = some today then
        streak
      else
        let current :=
          if streak.last_completed_date = some (today - 1) then
            streak.current_streak + 1
          else
            1
        let longest :=
          if current > streak.longest_streak then current else streak.longest_streak
        { current_streak := current, longest_streak := longest,
          last_completed_date := some today }

/-- Result of `StreakService.validate_streak`: the stored row after the call
and the `streak_updated` flag. -/
structure ValidateResult where
  streak : UserStreak
  streak_updated : Bool
  deriving Repr, DecidableEq

/-- Embedding of `StreakService.validate_streak`.  No row → a fresh row
(0, 0, none) is created and stored; `last_completed_date == today` → no
change; `== today - 1` → increment and raise `longest_streak`;
otherwise `current_streak := 1` with `longest_streak` left as it was
(the source's else-branch does not touch `longest_streak`). -/
def validateStreak (today : Int) (s : Option UserStreak) : ValidateResult :=
  match s with
  | none =>
      { streak := { current_streak := 0, longest_streak := 0, last_completed_date := none },
        streak_updated := false }
  | some streak =>
      if streak.last_completed_date = some today then
        { streak := streak, streak_updated := false }
      else if streak.last_completed_date = some (today - 1) then
        let current := streak.current_streak + 1
        let longest :=
          if current > streak.longest_streak then current else streak.longest_streak
        { streak := { current_streak := current, longest_streak := longest,
                      last_completed_date := some today },
          streak_updated := true }
      else
        { streak := { current_streak := 1, longest_streak := streak.longest_streak,
                      last_completed_date := some today },
          streak_updated := true }

/-- Embedding of `StreakService.reset_streak`: when a row exists, set
`current_streak := 0` and clear `last_completed_date`; a missing row is left
missing. -/
def resetStreak (s : Option UserStreak) : Option UserStreak :=
  match s with
  | none => none
  | some streak =>
      some { streak with current_streak := 0, last_completed_date := none }

/-- A Streak Tracker operation: challenge-completion update, validate, or
reset, each at some value of `today`. -/
inductive StreakOp where
  | update (today : Int)
  | validate (today : Int)
  | reset
  deriving Repr, DecidableEq

/-- The stored streak row after one operation. `update` and `validate`
always leave a stored row (both create one when none exists); `reset` only
mutates an existing row. -/
def applyStreakOp (s : Option UserStreak) : StreakOp → Option UserStreak
  | .update today => some (updateStreak today s)
  | .validate today => some (validateStreak today s).streak
  | .reset => resetStreak s

/-- The stored streak row after a sequence of operations. -/
def runStreakOps (ops : List StreakOp) (s : Option UserStreak) : Option UserStreak :=
  ops.foldl applyStreakOp s

/-- Whether a Streak Tracker operation is a validate call. -/
def StreakOp.usesValidate : StreakOp → Bool
  | .validate _ => true
  | _ => false

/-- The spec's streak invariant on a stored row. -/
def streakInv (s : Option UserStreak) : Prop :=
  ∀ st : UserStreak, s = some st → st.current_streak ≤ st.longest_streak

instance (s : Option UserStreak) : Decidable (streakInv s) := by
  unfold streakInv
  exact inferInstance

/-! ## Achievement evaluator (`services/achievement_service.py`) -/

/-- One entry of the static catalog `ACHIEVEMENT_DEFINITIONS`. -/
structure AchievementDef where
  id : String
  title : String
  description : String
  category : String
  requirement : Nat
  deriving Repr, DecidableEq

/-- The static achievement catalog (`ACHIEVEMENT_DEFINITIONS`), emoji fields
omitted as presentation-only. -/
def ACHIEVEMENT_DEFINITIONS : List AchievementDef :=
  [ { id := "streak_3", title := "Getting Started",
      description := "Maintain a 3-day streak", category := "streak", requirement := 3 },
    { id := "streak_7", title := "Week Warrior",
      description := "Maintain a 7-day streak", category := "streak", requirement := 7 },
    { id := "streak_30", title := "Monthly Master",
      description := "Maintain a 30-day streak", category := "streak", requirement := 30 },
    { id := "streak_100", title := "Century Club",
      description := "Maintain a 100-day streak", category := "streak", requirement := 100 },
    { id := "challenges_5", title := "First Steps",
      description := "Complete 5 challenges", category := "challenges", requirement := 5 },
    { id := "challenges_25", title := "Dedicated",
      description := "Complete 25 challenges", category := "challenges", requirement := 25 },
    { id := "challenges_50", title := "Wellness Pro",
      description := "Complete 50 challenges", category := "challenges", requirement := 50 },
    { id := "challenges_100", title := "Legend",
      description := "Complete 100 challenges", category := "challenges", requirement := 100 } ]

/-- A stored `UserAchievement` row for a fixed user: the unlocked
achievement id and the unlock timestamp. -/
structure UserAchievement where
  achievement_id : String
  unlocked_at : Nat
  deriving Repr, DecidableEq

/-- The achievement ids present in the stored unlock rows. -/
def achievementIds (recs : List UserAchievement) : List String :=
  recs.map (·.achievement_id)

/-- Embedding of `AchievementService._unlock_achievement`: insert an unlock
row unless one already exists for this achievement id. -/
def unlockAchievement (recs : List UserAchievement) (aid : String) (now : Nat) :
    List UserAchievement :=
  if aid ∈ achievementIds recs then recs
  else recs ++ [{ achievement_id := aid, unlocked_at := now }]

/-- The unlock condition evaluated by both `check_and_unlock` and
`get_achievements`: `streak` definitions compare the requirement against
`longest_streak`, `challenges` definitions against the total completion
count; any other category never unlocks. -/
def shouldUnlock (longest total : Nat) (defn : AchievementDef) : Bool :=
  if defn.category = "streak" then
    decide (longest ≥ defn.requirement)
  else if defn.category = "challenges" then
    decide (total ≥ defn.requirement)
  else
    false

/-- Loop body of `AchievementService.check_and_unlock`: `unlockedIds` is the
snapshot of already-unlocked ids taken before the loop; the accumulator
carries the stored rows and the list of newly unlocked definitions. -/
def checkStep (unlockedIds : List String) (longest total now : Nat)
    (acc : List UserAchievement × List AchievementDef) (defn : AchievementDef) :
    List UserAchievement × List AchievementDef :=
  if defn.id ∈ unlockedIds then acc
  else if shouldUnlock longest total defn then
    (unlockAchievement acc.1 defn.id now, acc.2 ++ [defn])
  else acc

/-- Embedding of `AchievementService.check_and_unlock`: fold the catalog
with `checkStep`, starting from the stored rows and an empty
newly-unlocked list.  `longest` and `total` are the user's stats read at
the start of the call; returns (stored rows after, newly unlocked
definitions). -/
def check_and_unlock (longest total now : Nat) (recs : List UserAchievement) :
    List UserAchievement × List AchievementDef :=
  ACHIEVEMENT_DEFINITIONS.foldl (checkStep (achievementIds recs) longest total now) (recs, [])

/-- One returned entry of `AchievementService.get_achievements`: the catalog
definition annotated with unlock status and timestamp. -/
structure AnnotatedAchievement where
  defn : AchievementDef
  is_unlocked : Bool
  unlocked_at : Option Nat
  deriving Repr, DecidableEq

/-- Python builds `unlocked_achievements` as a dict keyed by achievement id;
for duplicate keys the last row wins, so look up the last matching row. -/
def lookupUnlockedAt (recs : List UserAchievement) (aid : String) : Option Nat :=
  (recs.reverse.find? (fun ua => ua.achievement_id = aid)).map (·.unlocked_at)

/-- Loop body of `AchievementService.get_achievements`: `unlockedIds` and
`unlockedAt` come from the snapshot dict taken before the loop; a
definition that is satisfied but not yet recorded is auto-unlocked and
reported as unlocked at `now`. -/
def getStep (unlockedIds : List String) (snapshot : List UserAchievement)
    (longest total now : Nat)
    (acc : List UserAchievement × List AnnotatedAchievement) (defn : AchievementDef) :
    List UserAchievement × List AnnotatedAchievement :=
  let isUnlocked := defn.id ∈ unlockedIds
  let unlockedAt := lookupUnlockedAt snapshot defn.id
  if shouldUnlock longest total defn ∧ ¬ isUnlocked then
    (unlockAchievement acc.1 defn.id now,
     acc.2 ++ [{ defn := defn, is_unlocked := true, unlocked_at := some now }])
  else
    (acc.1, acc.2 ++ [{ defn := defn, is_unlocked := isUnlocked, unlocked_at := unlockedAt }])

/-- Embedding of `AchievementService.get_achievements`: returns (stored rows
after the call, the annotated catalog in order). -/
def get_achievements (longest total now : Nat) (recs : List UserAchievement) :
    List UserAchievement × List AnnotatedAchievement :=
  ACHIEVEMENT_DEFINITIONS.foldl (getStep (achievementIds recs) recs longest total now) (recs, [])

/-- The annotated entry `getStep` appends for one definition (factored out
of `getStep` for reasoning about the returned list). -/
def getAnnot (unlockedIds : List String) (snapshot : List UserAchievement)
    (longest total now : Nat) (defn : AchievementDef) : AnnotatedAchievement :=
  if shouldUnlock longest total defn ∧ ¬ defn.id ∈ unlockedIds then
    { defn := defn, is_unlocked := true, unlocked_at := some now }
  else
    { defn := defn, is_unlocked := defn.id ∈ unlockedIds,
      unlocked_at := lookupUnlockedAt snapshot defn.id }

/-- The first catalog entry (`streak_3`), named for concrete instances. -/
def streak3Def : AchievementDef :=
  { id := "streak_3", title := "Getting Started",
    description := "Maintain a 3-day streak", category := "streak", requirement := 3 }

/-- An achievement-evaluator call: the explicit check or the
auto-unlocking read, each with the stats and clock it observes. -/
inductive AchOp where
  | check (longest total now : Nat)
  | get (longest total now : Nat)
  deriving Repr, DecidableEq

/-- The stored unlock rows after one achievement-evaluator call. -/
def applyAchOp (recs : List UserAchievement) : AchOp → List UserAchievement
  | .check longest total now => (check_and_unlock longest total now recs).1
  | .get longest total now => (get_achievements longest total now recs).1

/-- The stored unlock rows after a sequence of achievement-evaluator calls. -/
def runAchOps (ops : List AchOp) (recs : List UserAchievement) : List UserAchievement :=
  ops.foldl applyAchOp recs

/-! ## Reminder scheduler match rule (`services/scheduler_service.py`) -/

/-- A `models.Reminder` schedule entry, the fields read by the scheduler's
match predicate.  `frequency` is a free string in the model
(`daily`, `weekdays`, `custom`); `custom_days` is nullable. -/
structure Reminder where
  time_hour : Nat
  time_minute : Nat
  frequency : String
  custom_days : Option (List Nat)
  deriving Repr, DecidableEq

/-- Embedding of `SchedulerService._should_send_reminder`.  `ch`/`cm` are the
current wall-clock hour and minute; `currentWeekday` is Python's
`datetime.weekday()` numbering (0 = Monday … 6 = Sunday).  The stored
time must be within one minute of now (absolute difference of
minutes-of-day), and the frequency rule must hold: `daily` always,
`weekdays` when the Python weekday is < 5, `custom` when the weekday
converted to 0 = Sunday numbering by `(w + 1) % 7` is in `custom_days`
(`or []` when null); any other frequency never matches. -/
def shouldSendReminder (r : Reminder) (ch cm : Nat) (currentWeekday : Nat) : Bool :=
  let timeDiff : Nat :=
    ((ch * 60 + cm : Int) - (r.time_hour * 60 + r.time_minute : Int)).natAbs
  if timeDiff > 1 then
    false
  else if r.frequency = "daily" then
    true
  else if r.frequency = "weekdays" then
    decide (currentWeekday < 5)
  else if r.frequency = "custom" then
    decide ((currentWeekday + 1) % 7 ∈ r.custom_days.getD [])
  else
    false

/-! ## Notification dispatch (`services/notification_service.py`) -/

/-- The dictionary returned by `NotificationService.send_notification`,
widened to one record: keys absent from a given return path are 0 or
`none` here (`local` → `local_notification`). -/
structure SendResult where
  success : Nat
  failure : Nat
  local_notification : Nat
  no_tokens : Nat
  error : Option String
  deriving Repr, DecidableEq

/-- The external push transport (`messaging.send_multicast`): given the
token list it either raises (modelled as `Except.error`) or returns a
per-token success flag list, from which the response's `success_count`
and `failure_count` derive. -/
def Transport : Type := List String → Except String (List Bool)

/-- Embedding of `NotificationService.send_notification` for a fixed user.
`firebaseReady` is `FIREBASE_AVAILABLE and _firebase_app`; `hasDb` is
whether a session was passed; `tokens` are the user's stored push tokens.
Returns the result dictionary and the stored tokens after the call
(invalid tokens reported by a partial-failure response are pruned; a
transport exception is caught and turned into a failure count for every
token). -/
def send_notification (firebaseReady : Bool) (hasDb : Bool)
    (tokens : List String) (transport : Transport) : SendResult × List String :=
  if ¬ firebaseReady then
    ({ success := 0, failure := 0, local_notification := 1, no_tokens := 0, error := none },
     tokens)
  else if ¬ hasDb then
    ({ success := 0, failure := 0, local_notification := 0, no_tokens := 0,
       error := some "Database session required" }, tokens)
  else if tokens = [] then
    ({ success := 0, failure := 0, local_notification := 0, no_tokens := 1, error := none },
     tokens)
  else
    match transport tokens with
    | .error e =>
        ({ success := 0, failure := tokens.length, local_notification := 0,
           no_tokens := 0, error := some e }, tokens)
    | .ok responses =>
        let failedTokens :=
          ((tokens.zip responses).filter (fun p => ¬ p.2)).map (·.1)
        let tokens' :=
          if failedTokens ≠ [] then tokens.filter (fun t => t ∉ failedTokens)
          else tokens
        ({ success := responses.count true, failure := responses.count false,
           local_notification := 0, no_tokens := 0, error := none }, tokens')

/-! ## Cache-independent read paths (`streak_service.get_streak`,
`challenge_service.get_history`) -/

/-- The response of `StreakService.get_streak` (timestamp field omitted:
`updated_at` is a wall-clock value independent of both stores). -/
structure StreakResponse where
  current_streak : Nat
  longest_streak : Nat
  last_completed_date : Option Int
  deriving Repr, DecidableEq

/-- Embedding of `StreakService.get_streak`: the cache value is fetched but
never used to build the response; the database row is authoritative.  A
missing row yields the zero response.  Returns the response and the cache
state after the call (the row, when present, is written back). -/
def get_streak (cached : Option String) (dbStreak : Option UserStreak)
    (serialize : UserStreak → String) : StreakResponse × Option String :=
  let _fetched := cached
  match dbStreak with
  | none =>
      ({ current_streak := 0, longest_streak := 0, last_completed_date := none }, cached)
  | some streak =>
      ({ current_streak := streak.current_streak,
         longest_streak := streak.longest_streak,
         last_completed_date := streak.last_completed_date },
       some (serialize streak))

/-- A `models.ChallengeHistory` row, the fields used by `get_history`. -/
structure ChallengeRow where
  user_id : String
  title : String
  completed_at : Int
  deriving Repr, DecidableEq

/-- The response of `ChallengeService.get_history`. -/
structure HistoryResponse where
  items : List ChallengeRow
  total : Nat
  page : Nat
  page_size : Nat
  deriving Repr, DecidableEq

/-- Insertion sort by descending `completed_at` (the query's
`order_by(completed_at.desc())`). -/
def insertDesc (row : ChallengeRow) : List ChallengeRow → List ChallengeRow
  | [] => [row]
  | r :: rs =>
      if row.completed_at ≥ r.completed_at then row :: r :: rs
      else r :: insertDesc row rs

/-- Sort rows by descending `completed_at`. -/
def sortDesc (rows : List ChallengeRow) : List ChallengeRow :=
  rows.foldr insertDesc []

/-- Embedding of `ChallengeService.get_history`: the cached value is fetched
and, when present, ignored (`if cached: pass`); the query filters the
user's rows by the optional date bounds, counts them, orders by
descending completion time and paginates with offset
`(page - 1) * page_size` and limit `page_size`.  The trailing
`cache_set` is commented out in the source, so the cache is not written. -/
def get_history (cached : Option String) (rows : List ChallengeRow)
    (user_id : String) (page page_size : Nat)
    (start_date end_date : Option Int) : HistoryResponse :=
  let _fetched := cached
  let filtered := rows.filter (fun r =>
    r.user_id = user_id
      && (match start_date with | none => true | some d => decide (r.completed_at ≥ d))
      && (match end_date with | none => true | some d => decide (r.completed_at ≤ d)))
  let total := filtered.length
  let ordered := sortDesc filtered
  let pageItems := (ordered.drop ((page - 1) * page_size)).take page_size
  { items := pageItems, total := total, page := page, page_size := page_size }

/-! ## Theorems: streak tracker -/

/-- The source's `if current > longest then current else longest` is
`max longest current`. -/
lemma ite_gt_eq_max (a b : Nat) : (if b > a then b else a) = max a b := by
  split <;> omega

/-- `updateStreak` preserves the streak invariant. -/
lemma streakInv_update (today : Int) (s : Option UserStreak) (hs : streakInv s) :
    streakInv (some (updateStreak today s)) := by
  intro st hst
  rw [Option.some_inj] at hst
  subst hst
  match s with
  | none => simp [updateStreak]
  | some streak =>
      by_cases h : streak.last_completed_date = some today
      · simpa [updateStreak, h] using hs streak rfl
      · simp only [updateStreak, if_neg h]
        rw [ite_gt_eq_max]
        exact Nat.le_max_right _ _

/-- `resetStreak` preserves the streak invariant (unconditionally:
`current_streak` becomes 0). -/
lemma streakInv_reset (s : Option UserStreak) :
    streakInv (resetStreak s) := by
  intro st hst
  match s with
  | none => cases hst
  | some streak =>
      simp only [resetStreak, Option.some_inj] at hst
      subst hst
      simp

/-- C1: completing a challenge updates the stored streak per the spec's
transition table: no row → (1, 1, today); `last_completed_date = today` →
unchanged; `= today - 1` → `current_streak + 1`; otherwise
`current_streak = 1`; and after an increment or reset,
`longest_streak = max (old longest) (new current)` and
`last_completed_date = today`. -/
theorem update_streak_transition (today : Int) (st : UserStreak) :
    (updateStreak today none =
      { current_streak := 1, longest_streak := 1, last_completed_date := some today })
    ∧ (st.last_completed_date = some today → updateStreak today (some st) = st)
    ∧ (st.last_completed_date = some (today - 1) →
        updateStreak today (some st) =
          { current_streak := st.current_streak + 1,
            longest_streak := max st.longest_streak (st.current_streak + 1),
            last_completed_date := some today })
    ∧ (st.last_completed_date ≠ some today → st.last_completed_date ≠ some (today - 1) →
        updateStreak today (some st) =
          { current_streak := 1, longest_streak := max st.longest_streak 1,
            last_completed_date := some today }) := by
  refine ⟨rfl, ?_, ?_, ?_⟩
  · intro h
    simp [updateStreak, h]
  · intro h
    have hne : st.last_completed_date ≠ some today := by
      rw [h]
      intro hc
      rw [Option.some_inj] at hc
      omega
    simp [updateStreak, hne, h, ite_gt_eq_max]
  · intro h1 h2
    simp only [updateStreak, if_neg h1, if_neg h2, UserStreak.mk.injEq]
    refine ⟨by trivial, ?_, by trivial⟩
    split <;> omega

/-- Witness for `update_streak_transition`: a 2-day streak last completed
yesterday (day 9) extends to 3 on day 10 and the longest streak 5 is kept. -/
theorem update_streak_transition_witness :
    updateStreak 10 (some { current_streak := 2, longest_streak := 5,
                            last_completed_date := some 9 }) =
      { current_streak := 3, longest_streak := 5, last_completed_date := some 10 } := by
  have h := (update_streak_transition 10
      { current_streak := 2, longest_streak := 5, last_completed_date := some 9 }).2.2.1
      (by decide)
  simpa using h

/-- C2 counterexample: validating with no streak row stores a (0, 0, none)
row, and validating again on a later day takes the gap branch, storing
`current_streak = 1` with `longest_streak` still 0 — the invariant
`longest_streak ≥ current_streak` fails after this operation sequence. -/
theorem streak_inv_violated_by_validate :
    ¬ streakInv (runStreakOps [StreakOp.validate 0, StreakOp.validate 5] none) := by
  decide

/-- C2 (amended): for every sequence of challenge-completion updates and
resets starting from no streak row, `longest_streak ≥ current_streak`
holds after every operation; validate operations are excluded, since they
can break the invariant. -/
theorem streak_inv_update_reset (ops : List StreakOp)
    (h : ∀ op ∈ ops, op.usesValidate = false) :
    streakInv (runStreakOps ops none) := by
  have main : ∀ (l : List StreakOp) (s : Option UserStreak),
      (∀ op ∈ l, op.usesValidate = false) → streakInv s → streakInv (runStreakOps l s) := by
    intro l
    induction l with
    | nil => exact fun s _ hs => hs
    | cons op rest ih =>
        intro s hl hs
        have hop : op.usesValidate = false := hl op (by simp)
        have hrest : ∀ o ∈ rest, o.usesValidate = false := fun o ho => hl o (by simp [ho])
        have hstep : streakInv (applyStreakOp s op) := by
          cases op with
          | update d => exact streakInv_update d s hs
          | validate d => simp [StreakOp.usesValidate] at hop
          | reset => exact streakInv_reset s
        exact ih (applyStreakOp s op) hrest hstep
  exact main ops none h (by intro st hst; cases hst)

/-- Witness for `streak_inv_update_reset`: two consecutive-day completions
followed by a reset keep `longest_streak ≥ current_streak`. -/
theorem streak_inv_update_reset_witness :
    streakInv (runStreakOps [StreakOp.update 3, StreakOp.update 4, StreakOp.reset] none) :=
  streak_inv_update_reset [StreakOp.update 3, StreakOp.update 4, StreakOp.reset] (by decide)

/-- C3 counterexample: on a missing streak row, validate stores
(0, 0, none) while a challenge-completion update stores (1, 1, today) —
the two operations do not produce the same resulting state. -/
theorem validate_differs_from_update :
    (validateStreak 0 none).streak ≠ updateStreak 0 none := by
  decide

/-- C3 (amended): validate and the challenge-completion update classify an
existing row by the identical date comparisons (`= today`, `= today - 1`,
gap) and produce the same resulting state in the completed-today and
completed-yesterday cases, and in the gap case whenever
`longest_streak ≥ 1`; they diverge on a missing row (update creates
(1, 1, today), validate creates (0, 0, none)) and in the gap case with
`longest_streak = 0` (validate leaves `longest_streak` at 0). -/
theorem validate_update_agree (today : Int) (st : UserStreak) :
    (st.last_completed_date = some today →
        (validateStreak today (some st)).streak = updateStreak today (some st))
    ∧ (st.last_completed_date = some (today - 1) →
        (validateStreak today (some st)).streak = updateStreak today (some st))
    ∧ (st.last_completed_date ≠ some today → st.last_completed_date ≠ some (today - 1) →
        1 ≤ st.longest_streak →
        (validateStreak today (some st)).streak = updateStreak today (some st)) := by
  refine ⟨?_, ?_, ?_⟩
  · intro h
    simp [validateStreak, updateStreak, h]
  · intro h
    have hne : st.last_completed_date ≠ some today := by
      rw [h]
      intro hc
      rw [Option.some_inj] at hc
      omega
    simp [validateStreak, updateStreak, hne, h]
  · intro h1 h2 hlong
    simp only [validateStreak, updateStreak, if_neg h1, if_neg h2, UserStreak.mk.injEq]
    refine ⟨by trivial, ?_, by trivial⟩
    split <;> omega

/-- Witness for `validate_update_agree`: for a row last completed yesterday
(day 9), validate and update produce the same state on day 10. -/
theorem validate_update_agree_witness :
    (validateStreak 10 (some { current_streak := 2, longest_streak := 5,
                               last_completed_date := some 9 })).streak =
      updateStreak 10 (some { current_streak := 2, longest_streak := 5,
                              last_completed_date := some 9 }) :=
  (validate_update_agree 10 { current_streak := 2, longest_streak := 5,
                              last_completed_date := some 9 }).2.1 (by decide)

/-- C8: resetting an existing streak row sets `current_streak = 0`, clears
`last_completed_date`, and leaves `longest_streak` exactly as it was; no
other field of the streak state exists to be modified. -/
theorem reset_streak_frame (st : UserStreak) :
    resetStreak (some st) =
      some { current_streak := 0, longest_streak := st.longest_streak,
             last_completed_date := none } :=
  rfl

/-! ## Theorems: reminder scheduler match rule -/

/-- C4: the match predicate holds exactly when the stored hour/minute is
within one minute of the current wall-clock time (absolute difference of
minutes-of-day) and the frequency rule matches: `daily` always;
`weekdays` on Python weekdays 0–4 (Monday–Friday); `custom` exactly when
the current weekday converted to 0 = Sunday numbering is a member of
`custom_days`. -/
theorem should_send_reminder_iff (r : Reminder) (ch cm w : Nat) :
    shouldSendReminder r ch cm w = true ↔
      (((ch * 60 + cm : Int) - (r.time_hour * 60 + r.time_minute : Int)).natAbs ≤ 1
        ∧ (r.frequency = "daily"
            ∨ (r.frequency = "weekdays" ∧ w < 5)
            ∨ (r.frequency = "custom" ∧ (w + 1) % 7 ∈ r.custom_days.getD []))) := by
  unfold shouldSendReminder
  split_ifs with h1 h2 h3 h4 <;> simp_all

/-! ## Theorems: achievement evaluator -/

/-- The unlock condition as the spec states it. -/
lemma shouldUnlock_iff (longest total : Nat) (d : AchievementDef) :
    shouldUnlock longest total d = true ↔
      ((d.category = "streak" ∧ d.requirement ≤ longest)
        ∨ (d.category = "challenges" ∧ d.requirement ≤ total)) := by
  unfold shouldUnlock
  split_ifs with h1 h2 <;> simp_all

/-- Membership in the unlock rows after `unlockAchievement`. -/
lemma mem_ids_unlockAchievement (recs : List UserAchievement) (aid aid' : String)
    (now : Nat) :
    aid' ∈ achievementIds (unlockAchievement recs aid now) ↔
      (aid' ∈ achievementIds recs ∨ aid' = aid) := by
  unfold unlockAchievement
  split
  · rename_i h
    constructor
    · exact Or.inl
    · rintro (h' | rfl)
      · exact h'
      · exact h
  · simp [achievementIds]

/-- `unlockAchievement` preserves distinctness of the stored ids. -/
lemma nodup_ids_unlockAchievement (recs : List UserAchievement) (aid : String)
    (now : Nat) (h : (achievementIds recs).Nodup) :
    (achievementIds (unlockAchievement recs aid now)).Nodup := by
  unfold unlockAchievement
  split
  · exact h
  · rename_i hmem
    have h2 : ∀ ua ∈ recs, ¬ ua.achievement_id = aid := by
      intro ua hua heq
      apply hmem
      rw [achievementIds, ← heq]
      exact List.mem_map_of_mem _ hua
    simpa [achievementIds, List.nodup_append] using ⟨h, h2⟩

/-- The newly-unlocked list produced by the `check_and_unlock` loop:
exactly the definitions not in the snapshot whose condition holds, in
catalog order. -/
lemma check_fold_snd (uids : List String) (longest total now : Nat) :
    ∀ (defs : List AchievementDef) (acc : List UserAchievement × List AchievementDef),
      (defs.foldl (checkStep uids longest total now) acc).2
        = acc.2 ++ defs.filter
            (fun d => decide (d.id ∉ uids) && shouldUnlock longest total d) := by
  intro defs
  induction defs with
  | nil => intro acc; simp
  | cons d rest ih =>
      intro acc
      by_cases hd : d.id ∈ uids
      · have hstep : checkStep uids longest total now acc d = acc := by
          simp [checkStep, hd]
        have hfilt : (decide (d.id ∉ uids) && shouldUnlock longest total d) = false := by
          simp [hd]
        simp only [List.foldl_cons, hstep, List.filter_cons, hfilt]
        simpa using ih acc
      · by_cases hu : shouldUnlock longest total d = true
        · have hstep : checkStep uids longest total now acc d
              = (unlockAchievement acc.1 d.id now, acc.2 ++ [d]) := by
            simp [checkStep, hd, hu]
          have hfilt : (decide (d.id ∉ uids) && shouldUnlock longest total d) = true := by
            simp [hd, hu]
          simp only [List.foldl_cons, hstep, List.filter_cons, hfilt]
          rw [ih]
          simp
        · have hstep : checkStep uids longest total now acc d = acc := by
            simp [checkStep, hd, hu]
          have hfilt : (decide (d.id ∉ uids) && shouldUnlock longest total d) = false := by
            simp [hd, hu]
          simp only [List.foldl_cons, hstep, List.filter_cons, hfilt]
          simpa using ih acc

/-- Membership in the stored rows after the `check_and_unlock` loop. -/
lemma check_fold_fst_mem (uids : List String) (longest total now : Nat) :
    ∀ (defs : List AchievementDef) (acc : List UserAchievement × List AchievementDef)
      (aid : String),
      (aid ∈ achievementIds (defs.foldl (checkStep uids longest total now) acc).1 ↔
        (aid ∈ achievementIds acc.1
          ∨ ∃ d ∈ defs, d.id = aid ∧ d.id ∉ uids ∧ shouldUnlock longest total d = true)) := by
  intro defs
  induction defs with
  | nil => intro acc aid; simp
  | cons d rest ih =>
      intro acc aid
      by_cases hd : d.id ∈ uids
      · have hstep : checkStep uids longest total now acc d = acc := by
          simp [checkStep, hd]
        simp only [List.foldl_cons, hstep, ih, List.mem_cons]
        constructor
        · rintro (h | ⟨d', hd', h⟩)
          · exact Or.inl h
          · exact Or.inr ⟨d', Or.inr hd', h⟩
        · rintro (h | ⟨d', hd' | hd', h⟩)
          · exact Or.inl h
          · subst hd'
            exact (h.2.1 hd).elim
          · exact Or.inr ⟨d', hd', h⟩
      · by_cases hu : shouldUnlock longest total d = true
        · have hstep : checkStep uids longest total now acc d
              = (unlockAchievement acc.1 d.id now, acc.2 ++ [d]) := by
            simp [checkStep, hd, hu]
          simp only [List.foldl_cons, hstep, ih, mem_ids_unlockAchievement, List.mem_cons]
          constructor
          · rintro ((h | rfl) | ⟨d', hd', h⟩)
            · exact Or.inl h
            · exact Or.inr ⟨d, Or.inl rfl, rfl, hd, hu⟩
            · exact Or.inr ⟨d', Or.inr hd', h⟩
          · rintro (h | ⟨d', hd' | hd', h⟩)
            · exact Or.inl (Or.inl h)
            · subst hd'
              exact Or.inl (Or.inr h.1.symm)
            · exact Or.inr ⟨d', hd', h⟩
        · have hstep : checkStep uids longest total now acc d = acc := by
            simp [checkStep, hd, hu]
          simp only [List.foldl_cons, hstep, ih, List.mem_cons]
          constructor
          · rintro (h | ⟨d', hd', h⟩)
            · exact Or.inl h
            · exact Or.inr ⟨d', Or.inr hd', h⟩
          · rintro (h | ⟨d', hd' | hd', h⟩)
            · exact Or.inl h
            · subst hd'
              exact (hu h.2.2).elim
            · exact Or.inr ⟨d', hd', h⟩

/-- The `check_and_unlock` loop preserves distinctness of the stored ids. -/
lemma check_fold_fst_nodup (uids : List String) (longest total now : Nat) :
    ∀ (defs : List AchievementDef) (acc : List UserAchievement × List AchievementDef),
      (achievementIds acc.1).Nodup →
      (achievementIds (defs.foldl (checkStep uids longest total now) acc).1).Nodup := by
  intro defs
  induction defs with
  | nil => intro acc h; exact h
  | cons d rest ih =>
      intro acc h
      simp only [List.foldl_cons]
      apply ih
      unfold checkStep
      split_ifs with h1 h2
      · exact h
      · exact nodup_ids_unlockAchievement acc.1 d.id now h
      · exact h

/-- The annotated list produced by the `get_achievements` loop: one
`getAnnot` entry per catalog definition, in order. -/
lemma get_fold_snd (uids : List String) (snapshot : List UserAchievement)
    (longest total now : Nat) :
    ∀ (defs : List AchievementDef) (acc : List UserAchievement × List AnnotatedAchievement),
      (defs.foldl (getStep uids snapshot longest total now) acc).2
        = acc.2 ++ defs.map (getAnnot uids snapshot longest total now) := by
  intro defs
  induction defs with
  | nil => intro acc; simp
  | cons d rest ih =>
      intro acc
      by_cases hc : shouldUnlock longest total d = true ∧ ¬ d.id ∈ uids
      · have hstep : getStep uids snapshot longest total now acc d
            = (unlockAchievement acc.1 d.id now,
               acc.2 ++ [{ defn := d, is_unlocked := true, unlocked_at := some now }]) := by
          simp only [getStep, if_pos hc]
        have hann : getAnnot uids snapshot longest total now d
            = { defn := d, is_unlocked := true, unlocked_at := some now } := by
          simp only [getAnnot, if_pos hc]
        simp only [List.foldl_cons, hstep, List.map_cons, hann]
        rw [ih]
        simp
      · have hstep : getStep uids snapshot longest total now acc d
            = (acc.1, acc.2 ++ [{ defn := d, is_unlocked := decide (d.id ∈ uids),
                                  unlocked_at := lookupUnlockedAt snapshot d.id }]) := by
          simp only [getStep, if_neg hc]
        have hann : getAnnot uids snapshot longest total now d
            = { defn := d, is_unlocked := decide (d.id ∈ uids),
                unlocked_at := lookupUnlockedAt snapshot d.id } := by
          simp only [getAnnot, if_neg hc]
        simp only [List.foldl_cons, hstep, List.map_cons, hann]
        rw [ih]
        simp

/-- Membership in the stored rows after the `get_achievements` loop. -/
lemma get_fold_fst_mem (uids : List String) (snapshot : List UserAchievement)
    (longest total now : Nat) :
    ∀ (defs : List AchievementDef) (acc : List UserAchievement × List AnnotatedAchievement)
      (aid : String),
      (aid ∈ achievementIds (defs.foldl (getStep uids snapshot longest total now) acc).1 ↔
        (aid ∈ achievementIds acc.1
          ∨ ∃ d ∈ defs, d.id = aid ∧ d.id ∉ uids ∧ shouldUnlock longest total d = true)) := by
  intro defs
  induction defs with
  | nil => intro acc aid; simp
  | cons d rest ih =>
      intro acc aid
      by_cases hc : shouldUnlock longest total d = true ∧ ¬ d.id ∈ uids
      · have hstep : (getStep uids snapshot longest total now acc d).1
            = unlockAchievement acc.1 d.id now := by
          simp only [getStep, if_pos hc]
        have hfold : (List.foldl (getStep uids snapshot longest total now) acc (d :: rest)).1
            = (List.foldl (getStep uids snapshot longest total now)
                (getStep uids snapshot longest total now acc d) rest).1 := rfl
        rw [hfold, ih, hstep, mem_ids_unlockAchievement]
        simp only [List.mem_cons]
        constructor
        · rintro ((h | rfl) | ⟨d', hd', h⟩)
          · exact Or.inl h
          · exact Or.inr ⟨d, Or.inl rfl, rfl, hc.2, hc.1⟩
          · exact Or.inr ⟨d', Or.inr hd', h⟩
        · rintro (h | ⟨d', hd' | hd', h⟩)
          · exact Or.inl (Or.inl h)
          · subst hd'
            exact Or.inl (Or.inr h.1.symm)
          · exact Or.inr ⟨d', hd', h⟩
      · have hstep : (getStep uids snapshot longest total now acc d).1 = acc.1 := by
          simp only [getStep, if_neg hc]
        have hfold : (List.foldl (getStep uids snapshot longest total now) acc (d :: rest)).1
            = (List.foldl (getStep uids snapshot longest total now)
                (getStep uids snapshot longest total now acc d) rest).1 := rfl
        rw [hfold, ih, hstep]
        simp only [List.mem_cons]
        constructor
        · rintro (h | ⟨d', hd', h⟩)
          · exact Or.inl h
          · exact Or.inr ⟨d', Or.inr hd', h⟩
        · rintro (h | ⟨d', hd' | hd', h⟩)
          · exact Or.inl h
          · subst hd'
            exact (hc ⟨h.2.2, h.2.1⟩).elim
          · exact Or.inr ⟨d', hd', h⟩

/-- The `get_achievements` loop preserves distinctness of the stored ids. -/
lemma get_fold_fst_nodup (uids : List String) (snapshot : List UserAchievement)
    (longest total now : Nat) :
    ∀ (defs : List AchievementDef) (acc : List UserAchievement × List AnnotatedAchievement),
      (achievementIds acc.1).Nodup →
      (achievementIds (defs.foldl (getStep uids snapshot longest total now) acc).1).Nodup := by
  intro defs
  induction defs with
  | nil => intro acc h; exact h
  | cons d rest ih =>
      intro acc h
      simp only [List.foldl_cons]
      apply ih
      by_cases hc : shouldUnlock longest total d = true ∧ ¬ d.id ∈ uids
      · have hstep : (getStep uids snapshot longest total now acc d).1
            = unlockAchievement acc.1 d.id now := by
          simp only [getStep, if_pos hc]
        rw [hstep]
        exact nodup_ids_unlockAchievement acc.1 d.id now h
      · have hstep : (getStep uids snapshot longest total now acc d).1 = acc.1 := by
          simp only [getStep, if_neg hc]
        rw [hstep]
        exact h

/-- The newly-unlocked list returned by `check_and_unlock`, closed form. -/
lemma check_newly_eq (longest total now : Nat) (recs : List UserAchievement) :
    (check_and_unlock longest total now recs).2
      = ACHIEVEMENT_DEFINITIONS.filter
          (fun d => decide (d.id ∉ achievementIds recs) && shouldUnlock longest total d) := by
  unfold check_and_unlock
  rw [check_fold_snd]
  simp

/-- Ids stored after `check_and_unlock`, membership characterization. -/
lemma check_ids_mem (longest total now : Nat) (recs : List UserAchievement) (aid : String) :
    aid ∈ achievementIds (check_and_unlock longest total now recs).1 ↔
      (aid ∈ achievementIds recs
        ∨ ∃ d ∈ ACHIEVEMENT_DEFINITIONS, d.id = aid ∧ d.id ∉ achievementIds recs
            ∧ shouldUnlock longest total d = true) := by
  unfold check_and_unlock
  exact check_fold_fst_mem _ _ _ _ _ _ _

/-- The annotated list returned by `get_achievements`, closed form. -/
lemma get_annotated_eq (longest total now : Nat) (recs : List UserAchievement) :
    (get_achievements longest total now recs).2
      = ACHIEVEMENT_DEFINITIONS.map (getAnnot (achievementIds recs) recs longest total now) := by
  unfold get_achievements
  rw [get_fold_snd]
  simp

/-- Ids stored after `get_achievements`, membership characterization. -/
lemma get_ids_mem (longest total now : Nat) (recs : List UserAchievement) (aid : String) :
    aid ∈ achievementIds (get_achievements longest total now recs).1 ↔
      (aid ∈ achievementIds recs
        ∨ ∃ d ∈ ACHIEVEMENT_DEFINITIONS, d.id = aid ∧ d.id ∉ achievementIds recs
            ∧ shouldUnlock longest total d = true) := by
  unfold get_achievements
  exact get_fold_fst_mem _ _ _ _ _ _ _ _

/-- C5: `check_and_unlock` returns exactly the catalog definitions that are
not already in the user's unlocked set and whose condition holds —
`longest_streak ≥ requirement` for category `streak`,
total completed count ≥ requirement for category `challenges` — and the
stored unlock rows afterwards hold exactly the previously unlocked ids
plus those newly satisfied ones. -/
theorem check_and_unlock_spec (longest total now : Nat) (recs : List UserAchievement) :
    (∀ defn : AchievementDef,
      (defn ∈ (check_and_unlock longest total now recs).2 ↔
        (defn ∈ ACHIEVEMENT_DEFINITIONS ∧ defn.id ∉ achievementIds recs
          ∧ ((defn.category = "streak" ∧ defn.requirement ≤ longest)
              ∨ (defn.category = "challenges" ∧ defn.requirement ≤ total)))))
    ∧ (∀ aid : String,
      (aid ∈ achievementIds (check_and_unlock longest total now recs).1 ↔
        (aid ∈ achievementIds recs
          ∨ ∃ d ∈ ACHIEVEMENT_DEFINITIONS, d.id = aid ∧ d.id ∉ achievementIds recs
              ∧ shouldUnlock longest total d = true))) := by
  constructor
  · intro defn
    rw [check_newly_eq]
    simp only [List.mem_filter, Bool.and_eq_true, decide_eq_true_eq, shouldUnlock_iff]
  · exact check_ids_mem longest total now recs

/-- C6: re-running `check_and_unlock` with unchanged stats returns an empty
newly-unlocked list, and after any sequence of check / get calls starting
from no unlock rows the stored achievement ids are distinct (at most one
row per (user, achievement) pair). -/
theorem achievement_idempotent_unique (longest total now now2 : Nat)
    (recs : List UserAchievement) (ops : List AchOp) :
    ((check_and_unlock longest total now2
        (check_and_unlock longest total now recs).1).2 = [])
    ∧ (achievementIds (runAchOps ops [])).Nodup := by
  constructor
  · rw [check_newly_eq, List.filter_eq_nil_iff]
    intro d hd
    simp only [Bool.and_eq_true, decide_eq_true_eq]
    rintro ⟨hnotin, hu⟩
    apply hnotin
    rw [check_ids_mem]
    by_cases hrec : d.id ∈ achievementIds recs
    · exact Or.inl hrec
    · exact Or.inr ⟨d, hd, rfl, hrec, hu⟩
  · have main : ∀ (l : List AchOp) (recs0 : List UserAchievement),
        (achievementIds recs0).Nodup → (achievementIds (runAchOps l recs0)).Nodup := by
      intro l
      induction l with
      | nil => exact fun recs0 h => h
      | cons op rest ih =>
          intro recs0 h
          apply ih
          cases op with
          | check l0 t0 n0 =>
              exact check_fold_fst_nodup (achievementIds recs0) l0 t0 n0
                ACHIEVEMENT_DEFINITIONS (recs0, []) h
          | get l0 t0 n0 =>
              exact get_fold_fst_nodup (achievementIds recs0) recs0 l0 t0 n0
                ACHIEVEMENT_DEFINITIONS (recs0, []) h
    exact main ops [] (by simp [achievementIds])

/-- C7: `get_achievements` returns the full catalog in order, annotated
with unlock status and timestamp; it records an unlock for every
definition whose condition is satisfied but not yet recorded; and the
returned list marks a definition as unlocked exactly when it was
previously unlocked or its condition is satisfied by the user's current
stats. -/
theorem get_achievements_spec (longest total now : Nat) (recs : List UserAchievement) :
    ((get_achievements longest total now recs).2.map (·.defn) = ACHIEVEMENT_DEFINITIONS)
    ∧ (∀ e ∈ (get_achievements longest total now recs).2,
        (e.is_unlocked = true ↔
          (e.defn.id ∈ achievementIds recs ∨ shouldUnlock longest total e.defn = true)))
    ∧ (∀ aid : String,
        (aid ∈ achievementIds (get_achievements longest total now recs).1 ↔
          (aid ∈ achievementIds recs
            ∨ ∃ d ∈ ACHIEVEMENT_DEFINITIONS, d.id = aid
                ∧ shouldUnlock longest total d = true))) := by
  refine ⟨?_, ?_, ?_⟩
  · rw [get_annotated_eq, List.map_map]
    have : (fun e : AnnotatedAchievement => e.defn)
        ∘ getAnnot (achievementIds recs) recs longest total now = id := by
      funext d
      simp only [Function.comp_apply, getAnnot, id]
      split <;> rfl
    rw [this, List.map_id]
  · intro e he
    rw [get_annotated_eq] at he
    obtain ⟨d, _, rfl⟩ := List.mem_map.1 he
    unfold getAnnot
    by_cases hc : shouldUnlock longest total d = true ∧ ¬ d.id ∈ achievementIds recs
    · rw [if_pos hc]
      simpa using Or.inr hc.1
    · rw [if_neg hc]
      by_cases hmem : d.id ∈ achievementIds recs
      · simp [hmem]
      · have hu : ¬ shouldUnlock longest total d = true := fun hu => hc ⟨hu, hmem⟩
        simp [hmem, hu]
  · intro aid
    rw [get_ids_mem]
    constructor
    · rintro (h | ⟨d, hd, hid, _, hu⟩)
      · exact Or.inl h
      · exact Or.inr ⟨d, hd, hid, hu⟩
    · rintro (h | ⟨d, hd, hid, hu⟩)
      · exact Or.inl h
      · by_cases hrec : aid ∈ achievementIds recs
        · exact Or.inl hrec
        · exact Or.inr ⟨d, hd, hid, by rw [hid]; exact hrec, hu⟩

/-- Witness for `get_achievements_spec`: with no stored rows,
`longest_streak = 3` and no completions, the returned entry for the
(satisfied) 3-day-streak definition is marked unlocked. -/
theorem get_achievements_spec_witness :
    (({ defn := streak3Def, is_unlocked := true,
        unlocked_at := some 7 } : AnnotatedAchievement).is_unlocked = true
      ↔ (streak3Def.id ∈ achievementIds []
          ∨ shouldUnlock 3 0 streak3Def = true)) :=
  (get_achievements_spec 3 0 7 []).2.1
    { defn := streak3Def, is_unlocked := true, unlocked_at := some 7 }
    (by rw [get_annotated_eq]; decide)

/-! ## Theorems: notification dispatch -/

/-- C9: notification dispatch is a total function of its inputs (the
embedding returns a `SendResult` on every path, so no exception reaches
the caller); with zero registered tokens it returns a zero-count result
(success 0, failure 0), and when the transport raises, the exception is
absorbed into a failure count covering every token, leaving the stored
tokens untouched. -/
theorem send_notification_spec (tokens : List String) (transport : Transport) (e : String) :
    (send_notification true true [] transport =
      ({ success := 0, failure := 0, local_notification := 0, no_tokens := 1,
         error := none }, []))
    ∧ (tokens ≠ [] →
        send_notification true true tokens (fun _ => Except.error e) =
          ({ success := 0, failure := tokens.length, local_notification := 0,
             no_tokens := 0, error := some e }, tokens)) := by
  constructor
  · rfl
  · intro h
    simp [send_notification, h]

/-- Witness for `send_notification_spec`: dispatch to two tokens through a
raising transport counts two failures and keeps both tokens stored. -/
theorem send_notification_spec_witness :
    send_notification true true ["a", "b"] (fun _ => Except.error "down") =
      ({ success := 0, failure := 2, local_notification := 0,
         no_tokens := 0, error := some "down" }, ["a", "b"]) :=
  (send_notification_spec ["a", "b"] (fun _ => Except.error "down") "down").2
    (by decide)

/-! ## Theorems: cache independence of the read paths -/

/-- C10: the streak read and the challenge-history read return the same
response for any two key/value-cache states: the cached value, although
fetched, never contributes to the response — only the database state
does. -/
theorem read_paths_cache_independent (c1 c2 : Option String)
    (dbStreak : Option UserStreak) (serialize : UserStreak → String)
    (rows : List ChallengeRow) (uid : String) (page pageSize : Nat)
    (startDate endDate : Option Int) :
    ((get_streak c1 dbStreak serialize).1 = (get_streak c2 dbStreak serialize).1)
    ∧ (get_history c1 rows uid page pageSize startDate endDate
        = get_history c2 rows uid page pageSize startDate endDate) := by
  constructor
  · cases dbStreak <;> rfl
  · rfl

end CorpFinity
